import Mathlib

/-!
Verification of the UDP-over-stream tunnel slice of the relay toolkit:
the cached DTLS-dialer resolver, the layered network resolver, the
session-resumption store, and the datagram tunnel connection.

Go strings are modelled as Lean `String`, byte strings as `List Nat`
(each entry a byte value), `time.Time`/`time.Duration` as nanosecond
`Nat` counts, and Go `(value, error)` returns as pairs with an `Option`
or `Except` error component.
-/

/- ### Go standard-library address helpers

`net.SplitHostPort`, `net.JoinHostPort` and `net.ParseIP` are standard
library collaborators; they are modelled here on their documented
textual behaviour (bracketed IPv6 hosts, last-colon split, dotted-quad
and RFC-4291 textual forms without zone suffixes). -/

/-- Index of the last colon in a character list, if any. -/
def lastIdxOfColon : List Char → Option Nat
  | [] => none
  | c :: rest =>
    match lastIdxOfColon rest with
    | some i => some (i + 1)
    | none => if c = ':' then some 0 else none

/-- Model of `net.SplitHostPort`: split at the last colon, strip one
pair of square brackets around the host, and reject an unbracketed
host containing a colon. `none` models a non-nil error. -/
def splitHostPort (s : String) : Option (String × String) :=
  let l := s.toList
  match lastIdxOfColon l with
  | none => none
  | some i =>
    let hostPart := l.take i
    let portPart := (l.drop (i + 1)).asString
    if hostPart.head? = some '[' then
      if hostPart.getLast? = some ']' then
        some (((hostPart.drop 1).dropLast).asString, portPart)
      else none
    else if hostPart.contains ':' then none
    else some (hostPart.asString, portPart)

/-- Model of `net.JoinHostPort`: bracket the host when it contains a
colon. -/
def joinHostPort (host p : String) : String :=
  if host.toList.contains ':' then "[" ++ host ++ "]:" ++ p
  else host ++ ":" ++ p

/-- Split a character list on a separator character (keeping empty
pieces, as `strings.Split` does). -/
def splitChars (sep : Char) : List Char → List (List Char)
  | [] => [[]]
  | c :: rest =>
    let r := splitChars sep rest
    if c = sep then [] :: r
    else
      match r with
      | h :: t => (c :: h) :: t
      | [] => [[c]]

/-- One dotted-quad octet: one to three digits, no leading zero, value
at most 255. -/
def ipv4Octet (t : List Char) : Bool :=
  !t.isEmpty && t.all Char.isDigit && decide (t.length ≤ 3) &&
    (t.length == 1 || t.head? != some '0') &&
    decide (t.foldl (fun a c => a * 10 + (c.toNat - 48)) 0 ≤ 255)

/-- Textual IPv4 address: exactly four valid octets. -/
def isIPv4L (l : List Char) : Bool :=
  let parts := splitChars '.' l
  parts.length == 4 && parts.all ipv4Octet

/-- Hexadecimal digit. -/
def isHexDigitCh (c : Char) : Bool :=
  c.isDigit || (decide ('a' ≤ c) && decide (c ≤ 'f')) ||
    (decide ('A' ≤ c) && decide (c ≤ 'F'))

/-- One IPv6 group: one to four hex digits. -/
def hexGroup (t : List Char) : Bool :=
  !t.isEmpty && decide (t.length ≤ 4) && t.all isHexDigitCh

/-- Group sequence of an IPv6 address (colon-separated parts with any
compression run removed): hex groups, optionally ending in a dotted
quad counting as two groups; exactly eight groups, or at most seven
under compression. -/
def v6Body (l : List (List Char)) (compressed : Bool) : Bool :=
  match l.getLast? with
  | none => compressed
  | some t =>
    let lastIsV4 := isIPv4L t
    let count := l.length + (if lastIsV4 then 1 else 0)
    l.dropLast.all hexGroup &&
      (lastIsV4 || hexGroup t) &&
      (if compressed then decide (count ≤ 7) else count == 8)

/-- Textual IPv6 address (no zone suffixes), by the placement of the
at-most-one `::` compression marker. -/
def isIPv6L (l : List Char) : Bool :=
  let parts := splitChars ':' l
  if parts.length < 2 then false
  else
    match parts with
    | [] :: [] :: rest =>
      rest == [[]] ||
        (!rest.isEmpty && rest.all (fun p => !p.isEmpty) && v6Body rest true)
    | _ =>
      if parts.head? == some [] then false
      else
        match parts.count [] with
        | 0 => v6Body parts false
        | 1 =>
          if parts.getLast? == some [] then false
          else v6Body (parts.erase []) true
        | 2 =>
          if parts.getLast? == some [] && parts.dropLast.getLast? == some [] then
            let front := parts.dropLast.dropLast
            !front.isEmpty && front.all (fun p => !p.isEmpty) && v6Body front true
          else false
        | _ => false

/-- Model of `net.ParseIP` viewed as a recognizer: does the string
parse as a literal IP address. -/
def isIP (s : String) : Bool := isIPv4L s.toList || isIPv6L s.toList

example : isIP "127.0.0.1" = true := by decide
example : isIP "::1" = true := by decide
example : isIP "example.com" = false := by decide
example : isIP "2001:db8::1" = true := by decide
example : isIP "93.184.216.34" = true := by decide
example : splitHostPort "example.com:53" = some ("example.com", "53") := by decide
example : splitHostPort "::1" = none := by decide
example : splitHostPort "[::1]:80" = some ("::1", "80") := by decide
example : splitHostPort "1.2.3.4" = none := by decide

/-- Decidable equality for Go-style `Except` results. -/
instance exceptDecEq {ε α : Type} [DecidableEq ε] [DecidableEq α] :
    DecidableEq (Except ε α) := fun x y =>
  match x, y with
  | .ok a, .ok b =>
    if h : a = b then .isTrue (by rw [h])
    else .isFalse (by intro hh; cases hh; exact h rfl)
  | .error a, .error b =>
    if h : a = b then .isTrue (by rw [h])
    else .isFalse (by intro hh; cases hh; exact h rfl)
  | .ok _, .error _ => .isFalse (by intro hh; cases hh)
  | .error _, .ok _ => .isFalse (by intro hh; cases hh)

namespace dtls

/-- One cached resolution: the selected IP and its absolute expiry
(nanoseconds), from `cachedIP` in the DTLS dialer. -/
structure cachedIP where
  ip : String
  expiresAt : Nat
deriving DecidableEq, Repr

/-- The process-wide `ipCache` (`sync.Map` keyed by hostname) as an
association list with unique keys. -/
abbrev IPCache := List (String × cachedIP)

/-- `ipCache.Load`. -/
def cacheLoad (c : IPCache) (host : String) : Option cachedIP :=
  (c.find? (fun e => e.1 == host)).map (fun e => e.2)

/-- `ipCache.Delete`. -/
def cacheDelete (c : IPCache) (host : String) : IPCache :=
  c.filter (fun e => e.1 != host)

/-- `ipCache.Store` (replacing any previous entry for the key). -/
def cacheStore (c : IPCache) (host : String) (v : cachedIP) : IPCache :=
  (host, v) :: cacheDelete c host

/-- The fixed cache TTL: `5 * time.Minute` in nanoseconds. -/
def dnsCacheTTL : Nat := 5 * 60 * 1000000000

/-- Errors `resolve` can return: a failed `LookupIP` call, or the
`net.DNSError` raised when the lookup yields no addresses. -/
inductive ResolveErr where
  | lookupFailed
  | noSuchHost (host : String)
deriving DecidableEq, Repr

/-- Result of one `resolve` call: the returned `(string, error)`, the
cache state afterwards, and whether a DNS lookup was performed. -/
structure ResolveOut where
  res : Except ResolveErr String
  cache : IPCache
  lookedUp : Bool
deriving DecidableEq, Repr

/-- The post-cache part of `resolve`: literal-IP passthrough, then the
`resolver.LookupIP` call (modelled as the `lookup` function returning
the IP list and an error flag; the `mark` socket option only routes the
lookup's own traffic and is absorbed into `lookup`), error and
empty-result handling, and caching of the first IP. -/
def lookupHost (lookup : String → List String × Bool) (now : Nat)
    (cache : IPCache) (addr host p : String) : ResolveOut :=
  if isIP host then ⟨.ok addr, cache, false⟩
  else if (lookup host).2 then ⟨.error .lookupFailed, cache, true⟩
  else
    match (lookup host).1 with
    | [] => ⟨.error (.noSuchHost host), cache, true⟩
    | ip :: _ =>
      ⟨.ok (joinHostPort ip p), cacheStore cache host ⟨ip, now + dnsCacheTTL⟩, true⟩

/-- `resolve` from the DTLS dialer: split the address (pass through on
failure), consult the cache (serve unexpired hits, lazily evict stale
ones), then fall to `lookupHost`. -/
def resolve (lookup : String → List String × Bool) (now : Nat)
    (cache : IPCache) (addr : String) : ResolveOut :=
  match splitHostPort addr with
  | none => ⟨.ok addr, cache, false⟩
  | some (host, p) =>
    match cacheLoad cache host with
    | some c =>
      if now < c.expiresAt then ⟨.ok (joinHostPort c.ip p), cache, false⟩
      else lookupHost lookup now (cacheDelete cache host) addr host p
    | none => lookupHost lookup now cache addr host p

end dtls

/-- Looking up a key in a cache that holds no literal-IP keys, with a
literal-IP host, misses. -/
theorem cacheLoad_none_of_wf (cache : dtls.IPCache) (host : String)
    (hwf : ∀ e ∈ cache, isIP e.1 = false) (hip : isIP host = true) :
    dtls.cacheLoad cache host = none := by
  unfold dtls.cacheLoad
  cases hfind : cache.find? (fun e => e.1 == host) with
  | none => rfl
  | some e =>
    have hmem : e ∈ cache := List.mem_of_find?_eq_some hfind
    have hpred := List.find?_some hfind
    have heq : e.1 = host := by simpa using hpred
    have hfalse : isIP host = false := heq ▸ hwf e hmem
    rw [hfalse] at hip
    cases hip

/-- Storing a key then loading it yields the stored entry. -/
theorem cacheLoad_store (cache : dtls.IPCache) (host : String) (v : dtls.cachedIP) :
    dtls.cacheLoad (dtls.cacheStore cache host v) host = some v := by
  simp [dtls.cacheLoad, dtls.cacheStore, List.find?]

/-- The cache invariant justifying the hypotheses below: `resolve`
only ever stores hostnames that failed the literal-IP test, so no
reachable cache state holds a literal-IP key. -/
theorem resolve_preserves_cache_wf (lookup : String → List String × Bool)
    (now : Nat) (cache : dtls.IPCache) (addr : String)
    (hwf : ∀ e ∈ cache, isIP e.1 = false) :
    ∀ e ∈ (dtls.resolve lookup now cache addr).cache, isIP e.1 = false := by
  have hdel : ∀ h, ∀ e ∈ dtls.cacheDelete cache h, isIP e.1 = false := by
    intro h e he
    exact hwf e (List.mem_of_mem_filter he)
  have hlk : ∀ cache2 : dtls.IPCache, (∀ e ∈ cache2, isIP e.1 = false) →
      ∀ host p, ∀ e ∈ (dtls.lookupHost lookup now cache2 addr host p).cache,
        isIP e.1 = false := by
    intro cache2 hwf2 host p e he
    unfold dtls.lookupHost at he
    by_cases hip : isIP host = true
    · rw [if_pos hip] at he
      exact hwf2 e he
    · rw [Bool.not_eq_true] at hip
      rw [if_neg (by simp [hip])] at he
      by_cases herr : (lookup host).2 = true
      · rw [if_pos herr] at he
        exact hwf2 e he
      · rw [if_neg herr] at he
        cases hl : (lookup host).1 with
        | nil =>
          rw [hl] at he
          exact hwf2 e he
        | cons ip rest =>
          rw [hl] at he
          dsimp only at he
          rcases List.mem_cons.mp he with he | he
          · rw [he]
            exact hip
          · exact hwf2 e (List.mem_of_mem_filter he)
  unfold dtls.resolve
  cases hsplit : splitHostPort addr with
  | none =>
    dsimp only
    exact hwf
  | some hp =>
    obtain ⟨host, p⟩ := hp
    dsimp only
    cases hload : dtls.cacheLoad cache host with
    | none =>
      dsimp only
      exact hlk cache hwf host p
    | some c =>
      dsimp only
      by_cases hfresh : now < c.expiresAt
      · rw [if_pos hfresh]
        exact hwf
      · rw [if_neg hfresh]
        exact hlk (dtls.cacheDelete cache host) (hdel host) host p

/-- C4: a cache hit whose expiry lies in the future is served from the
cache — cached IP joined with the original port, no error, no lookup
performed, cache unchanged. -/
theorem resolve_cached_hit_no_lookup (lookup : String → List String × Bool)
    (now : Nat) (cache : dtls.IPCache) (addr host p : String) (c : dtls.cachedIP)
    (hsplit : splitHostPort addr = some (host, p))
    (hload : dtls.cacheLoad cache host = some c)
    (hfresh : now < c.expiresAt) :
    dtls.resolve lookup now cache addr =
      ⟨.ok (joinHostPort c.ip p), cache, false⟩ := by
  unfold dtls.resolve
  rw [hsplit]
  dsimp only
  rw [hload]
  dsimp only
  rw [if_pos hfresh]

/-- C4 witness: a concrete unexpired cache hit, served without
invoking the (always-failing) lookup stub. -/
theorem resolve_cached_hit_no_lookup_witness :
    splitHostPort "example.com:53" = some ("example.com", "53") ∧
    dtls.cacheLoad [("example.com", ⟨"93.184.216.34", 100⟩)] "example.com" =
      some ⟨"93.184.216.34", 100⟩ ∧
    (50 : Nat) < 100 ∧
    dtls.resolve (fun _ => ([], true)) 50
        [("example.com", ⟨"93.184.216.34", 100⟩)] "example.com:53" =
      ⟨.ok (joinHostPort "93.184.216.34" "53"),
        [("example.com", ⟨"93.184.216.34", 100⟩)], false⟩ :=
  ⟨by decide, by decide, by decide,
    resolve_cached_hit_no_lookup (fun _ => ([], true)) 50
      [("example.com", ⟨"93.184.216.34", 100⟩)] "example.com:53"
      "example.com" "53" ⟨"93.184.216.34", 100⟩
      (by decide) (by decide) (by decide)⟩

/-- C5: an address that does not split into host and port, or whose
host is a literal IP (over any reachable, IP-key-free cache), passes
through unchanged with no error, and no DNS lookup happens. -/
theorem resolve_literal_ip_noop (lookup : String → List String × Bool)
    (now : Nat) (cache : dtls.IPCache) (addr : String)
    (hwf : ∀ e ∈ cache, isIP e.1 = false)
    (hip : match splitHostPort addr with
           | none => True
           | some (host, _) => isIP host = true) :
    (dtls.resolve lookup now cache addr).res = .ok addr ∧
    (dtls.resolve lookup now cache addr).lookedUp = false := by
  cases hsplit : splitHostPort addr with
  | none =>
    unfold dtls.resolve
    rw [hsplit]
    exact ⟨rfl, rfl⟩
  | some hp =>
    obtain ⟨host, p⟩ := hp
    rw [hsplit] at hip
    have hload := cacheLoad_none_of_wf cache host hwf hip
    simp [dtls.resolve, hsplit, hload, dtls.lookupHost, hip]

/-- C5 witness: a literal IPv4 address with a port, and one with no
port at all, both pass through an empty cache untouched. -/
theorem resolve_literal_ip_noop_witness :
    ((dtls.resolve (fun _ => ([], true)) 0 [] "93.184.216.34:443").res =
        .ok "93.184.216.34:443" ∧
      (dtls.resolve (fun _ => ([], true)) 0 [] "93.184.216.34:443").lookedUp = false) ∧
    ((dtls.resolve (fun _ => ([], true)) 0 [] "93.184.216.34").res =
        .ok "93.184.216.34" ∧
      (dtls.resolve (fun _ => ([], true)) 0 [] "93.184.216.34").lookedUp = false) :=
  ⟨resolve_literal_ip_noop (fun _ => ([], true)) 0 [] "93.184.216.34:443"
      (by simp) (by exact (show isIP "93.184.216.34" = true by decide)),
    resolve_literal_ip_noop (fun _ => ([], true)) 0 [] "93.184.216.34"
      (by simp) (by exact trivial)⟩

/-- C6: a hostname whose lookup succeeds is resolved to the first
returned IP joined with the original port, and that IP is cached with
expiry exactly one TTL (five minutes) after `now`. -/
theorem resolve_success_caches_first_ip (lookup : String → List String × Bool)
    (now : Nat) (cache : dtls.IPCache) (addr host p ip : String) (ips : List String)
    (hsplit : splitHostPort addr = some (host, p))
    (hmiss : match dtls.cacheLoad cache host with
             | none => True
             | some c => c.expiresAt ≤ now)
    (hip : isIP host = false)
    (hlook : lookup host = (ip :: ips, false)) :
    (dtls.resolve lookup now cache addr).res = .ok (joinHostPort ip p) ∧
    dtls.cacheLoad (dtls.resolve lookup now cache addr).cache host =
      some ⟨ip, now + dtls.dnsCacheTTL⟩ ∧
    (dtls.resolve lookup now cache addr).lookedUp = true := by
  have hbody : ∀ cache2 : dtls.IPCache,
      (dtls.lookupHost lookup now cache2 addr host p).res = .ok (joinHostPort ip p) ∧
      dtls.cacheLoad (dtls.lookupHost lookup now cache2 addr host p).cache host =
        some ⟨ip, now + dtls.dnsCacheTTL⟩ ∧
      (dtls.lookupHost lookup now cache2 addr host p).lookedUp = true := by
    intro cache2
    simp [dtls.lookupHost, hip, hlook, cacheLoad_store]
  cases hload : dtls.cacheLoad cache host with
  | none =>
    have h := hbody cache
    simp only [dtls.resolve, hsplit, hload]
    exact h
  | some c =>
    rw [hload] at hmiss
    have hle : c.expiresAt ≤ now := hmiss
    have h := hbody (dtls.cacheDelete cache host)
    simp only [dtls.resolve, hsplit, hload]
    rw [if_neg (Nat.not_lt.mpr hle)]
    exact h

/-- C6 witness: the spec's worked example — resolving
`example.com:53` against a stub returning `93.184.216.34` yields
`93.184.216.34:53` and caches that IP for five minutes. -/
theorem resolve_success_caches_first_ip_witness :
    splitHostPort "example.com:53" = some ("example.com", "53") ∧
    isIP "example.com" = false ∧
    (dtls.resolve (fun _ => (["93.184.216.34"], false)) 7 [] "example.com:53").res =
      .ok (joinHostPort "93.184.216.34" "53") ∧
    dtls.cacheLoad
        (dtls.resolve (fun _ => (["93.184.216.34"], false)) 7 [] "example.com:53").cache
        "example.com" = some ⟨"93.184.216.34", 7 + dtls.dnsCacheTTL⟩ ∧
    (dtls.resolve (fun _ => (["93.184.216.34"], false)) 7 [] "example.com:53").lookedUp =
      true := by
  have h := resolve_success_caches_first_ip (fun _ => (["93.184.216.34"], false))
    7 [] "example.com:53" "example.com" "53" "93.184.216.34" []
    (by decide) (by exact trivial) (by decide) (by decide)
  exact ⟨by decide, by decide, h.1, h.2.1, h.2.2⟩

namespace gonet

/-- Error values a pluggable resolver can report: the sentinel
`resolver.ErrInvalid` ("invalid input, do not attempt") or any other
hard failure. -/
inductive ResolverErr where
  | errInvalid
  | otherFailure
deriving DecidableEq, Repr

/-- The error `Resolve` itself can return: the domain-does-not-exist
error naming the host. -/
inductive NetResolveErr where
  | domainNotExist (host : String)
deriving DecidableEq, Repr

/-- The pluggable-resolver branch of `Resolve`: a `resolver.ErrInvalid`
report passes the original address through; any other error is only
logged and control falls through to the empty-result check; an empty
IP list yields the domain error; otherwise the first IP is joined with
the port. A resolver is modelled as a function from host to the
`([]net.IP, error)` pair it returns. -/
def resolveWith (r : Option (String → List String × Option ResolverErr))
    (addr host p : String) : String × Option NetResolveErr :=
  match r with
  | none => (addr, none)
  | some f =>
    match (f host).2 with
    | some .errInvalid => (addr, none)
    | _ =>
      match (f host).1 with
      | [] => ("", some (.domainNotExist host))
      | ip :: _ => (joinHostPort ip p, none)

/-- The body of `Resolve` after the empty-address check: empty host
(also produced when `net.SplitHostPort` failed, since Go ignores that
error and gets zero values) passes through; then the host mapper is
consulted, then the pluggable resolver. -/
def resolveHost (r : Option (String → List String × Option ResolverErr))
    (hosts : Option (String → List String)) (addr host p : String) :
    String × Option NetResolveErr :=
  if host = "" then (addr, none)
  else
    match hosts with
    | some hm =>
      match hm host with
      | ip :: _ => (joinHostPort ip p, none)
      | [] => resolveWith r addr host p
    | none => resolveWith r addr host p

/-- `Resolve` from the shared net utility: empty address passes
through, then the host/port are split (split failure giving empty
zero-value host and port) and handed to `resolveHost`. -/
def Resolve (r : Option (String → List String × Option ResolverErr))
    (hosts : Option (String → List String)) (addr : String) :
    String × Option NetResolveErr :=
  if addr = "" then (addr, none)
  else
    match splitHostPort addr with
    | none => resolveHost r hosts addr "" ""
    | some (host, p) => resolveHost r hosts addr host p

end gonet

/-- When the address is non-empty, splits, and the host mapper
misses, `Resolve` with a configured resolver reduces to the
pluggable-resolver branch. -/
theorem Resolve_reaches_resolver (r : Option (String → List String × Option gonet.ResolverErr))
    (hosts : Option (String → List String)) (addr host p : String)
    (haddr : addr ≠ "")
    (hsplit : splitHostPort addr = some (host, p))
    (hhost : host ≠ "")
    (hmiss : match hosts with
             | some hm => hm host = []
             | none => True) :
    gonet.Resolve r hosts addr = gonet.resolveWith r addr host p := by
  unfold gonet.Resolve
  rw [if_neg haddr, hsplit]
  dsimp only
  unfold gonet.resolveHost
  rw [if_neg hhost]
  cases hosts with
  | none => rfl
  | some hm =>
    have h : hm host = [] := hmiss
    dsimp only
    rw [h]

/-- C2 (amended): with a configured pluggable resolver (and no
host-mapper hit), an `ErrInvalid` report passes the original address
through with no error; a failure or success with an empty IP list
yields the domain error and never the original address; a non-sentinel
failure accompanied by at least one IP is treated as success and
resolves to that IP. -/
theorem Resolve_pluggable_resolver_policy
    (f : String → List String × Option gonet.ResolverErr)
    (hosts : Option (String → List String)) (addr host p : String)
    (ips : List String) (e : Option gonet.ResolverErr)
    (haddr : addr ≠ "")
    (hsplit : splitHostPort addr = some (host, p))
    (hhost : host ≠ "")
    (hmiss : match hosts with
             | some hm => hm host = []
             | none => True)
    (hres : f host = (ips, e)) :
    (e = some .errInvalid → gonet.Resolve (some f) hosts addr = (addr, none)) ∧
    (e ≠ some .errInvalid → ips = [] →
      gonet.Resolve (some f) hosts addr = ("", some (.domainNotExist host)) ∧
        ("" : String) ≠ addr) ∧
    (∀ ip tl, e ≠ some .errInvalid → ips = ip :: tl →
      gonet.Resolve (some f) hosts addr = (joinHostPort ip p, none)) := by
  have hred := Resolve_reaches_resolver (some f) hosts addr host p haddr hsplit hhost hmiss
  refine ⟨?_, ?_, ?_⟩
  · intro he
    rw [hred]
    simp [gonet.resolveWith, hres, he]
  · intro he hips
    refine ⟨?_, fun h => haddr h.symm⟩
    rw [hred]
    cases e with
    | none => simp [gonet.resolveWith, hres, hips]
    | some re =>
      cases re with
      | errInvalid => exact absurd rfl he
      | otherFailure => simp [gonet.resolveWith, hres, hips]
  · intro ip tl he hips
    rw [hred]
    cases e with
    | none => simp [gonet.resolveWith, hres, hips]
    | some re =>
      cases re with
      | errInvalid => exact absurd rfl he
      | otherFailure => simp [gonet.resolveWith, hres, hips]

/-- C2 witness: a resolver reporting `ErrInvalid` on a concrete
address passes it through unresolved; one returning no IPs yields the
domain error, not the original address. -/
theorem Resolve_pluggable_resolver_policy_witness :
    (gonet.Resolve (some fun _ => ([], some .errInvalid)) none "example.com:80" =
      ("example.com:80", none)) ∧
    (gonet.Resolve (some fun _ => ([], none)) none "example.com:80" =
      ("", some (.domainNotExist "example.com")) ∧
      ("" : String) ≠ "example.com:80") :=
  ⟨(Resolve_pluggable_resolver_policy (fun _ => ([], some .errInvalid)) none
      "example.com:80" "example.com" "80" [] (some .errInvalid)
      (by decide) (by decide) (by decide) trivial rfl).1 rfl,
    (Resolve_pluggable_resolver_policy (fun _ => ([], none)) none
      "example.com:80" "example.com" "80" [] none
      (by decide) (by decide) (by decide) trivial rfl).2.1 (by simp) rfl⟩

/-- C2 counterexample input: a configured resolver that hard-fails
(non-sentinel error) while also returning an IP list; `Resolve`
returns that IP with no error, so the claim that every non-sentinel
failure surfaces an error is false on the code. -/
theorem Resolve_hardfail_with_ips_no_error :
    ((fun _ : String => (["1.2.3.4"], some gonet.ResolverErr.otherFailure)) "example.com").2 =
      some gonet.ResolverErr.otherFailure ∧
    gonet.Resolve (some fun _ => (["1.2.3.4"], some .otherFailure)) none "example.com:80" =
      ("1.2.3.4:80", none) :=
  ⟨rfl, by decide⟩

/-- A DTLS resumption session (`piondtls.Session`): opaque id and
secret byte strings. The Go zero value has both slices nil/empty. -/
structure Session where
  id : List Nat
  secret : List Nat
deriving DecidableEq, Repr

/-- The zero `Session` returned by `Get` on a miss. -/
def zeroSession : Session := ⟨[], []⟩

/-- The `SimpleSessionStore`'s backing `sync.Map`, keyed by
`string(key)` (so keys compare byte-wise), as an association list with
unique keys. -/
abbrev SessionMap := List (List Nat × Session)

namespace SimpleSessionStore

/-- `SimpleSessionStore.Set`: store or overwrite, error always nil. -/
def Set (m : SessionMap) (key : List Nat) (s : Session) :
    SessionMap × Option Unit :=
  ((key, s) :: m.filter (fun e => e.1 != key), none)

/-- `SimpleSessionStore.Get`: the stored session, or the zero session
on a miss; error always nil. -/
def Get (m : SessionMap) (key : List Nat) : Session × Option Unit :=
  match m.find? (fun e => e.1 == key) with
  | some e => (e.2, none)
  | none => (zeroSession, none)

/-- `SimpleSessionStore.Del`: remove if present, error always nil. -/
def Del (m : SessionMap) (key : List Nat) : SessionMap × Option Unit :=
  (m.filter (fun e => e.1 != key), none)

end SimpleSessionStore

/-- Deleting a key from an association list, then searching for it,
finds nothing. -/
theorem assoc_find?_delete {α β : Type} [BEq α] (l : List (α × β)) (k : α) :
    (l.filter (fun e => e.1 != k)).find? (fun e => e.1 == k) = none := by
  induction l with
  | nil => rfl
  | cons e t ih =>
    by_cases h : (e.1 == k) = true
    · simp only [List.filter_cons, bne, h, Bool.not_true, if_neg]
      exact ih
    · have hb : (e.1 == k) = false := Bool.not_eq_true _ ▸ eq_false_of_ne_true h
      simp only [List.filter_cons, bne, hb, Bool.not_false, if_pos]
      rw [List.find?_cons_of_neg _ (by simp [hb])]
      exact ih

/-- C9: `Get` on an unset id yields the zero session and nil error;
`Set` then `Get` yields exactly the stored session; `Del` then `Get`
yields the zero-session miss again; `Set` and `Del` never error. -/
theorem sessionStore_set_get_del (m : SessionMap) (k : List Nat) (s : Session)
    (hmiss : m.find? (fun e => e.1 == k) = none) :
    SimpleSessionStore.Get m k = (zeroSession, none) ∧
    SimpleSessionStore.Get (SimpleSessionStore.Set m k s).1 k = (s, none) ∧
    SimpleSessionStore.Get (SimpleSessionStore.Del m k).1 k = (zeroSession, none) ∧
    (SimpleSessionStore.Set m k s).2 = none ∧
    (SimpleSessionStore.Del m k).2 = none := by
  refine ⟨?_, ?_, ?_, rfl, rfl⟩
  · unfold SimpleSessionStore.Get
    rw [hmiss]
  · unfold SimpleSessionStore.Get SimpleSessionStore.Set
    dsimp only
    rw [List.find?_cons_of_pos _ (by simp)]
  · unfold SimpleSessionStore.Get SimpleSessionStore.Del
    dsimp only
    rw [assoc_find?_delete]

/-- C9 witness: concrete set/get/del round trip on a store holding an
unrelated entry. -/
theorem sessionStore_set_get_del_witness :
    ([([9], Session.mk [9] [7])] : SessionMap).find? (fun e => e.1 == [1, 2]) = none ∧
    (SimpleSessionStore.Get [([9], Session.mk [9] [7])] [1, 2] = (zeroSession, none) ∧
      SimpleSessionStore.Get
        (SimpleSessionStore.Set [([9], Session.mk [9] [7])] [1, 2] ⟨[1, 2], [3, 4]⟩).1
        [1, 2] = (⟨[1, 2], [3, 4]⟩, none) ∧
      SimpleSessionStore.Get
        (SimpleSessionStore.Del [([9], Session.mk [9] [7])] [1, 2]).1
        [1, 2] = (zeroSession, none) ∧
      (SimpleSessionStore.Set [([9], Session.mk [9] [7])] [1, 2] ⟨[1, 2], [3, 4]⟩).2 = none ∧
      (SimpleSessionStore.Del [([9], Session.mk [9] [7])] [1, 2]).2 = none) :=
  ⟨by decide,
    sessionStore_set_get_del [([9], Session.mk [9] [7])] [1, 2] ⟨[1, 2], [3, 4]⟩ (by decide)⟩

namespace relay

/-- State of the `kaStop` channel field: nil (never started), open, or
closed. -/
inductive KaChannel where
  | noChan
  | opened
  | closedCh
deriving DecidableEq, Repr

/-- Observable state of one `udpTunConn`: the `kaStop` channel, the
`kaOnce` guard (`sync.Once` consumed or not), and counters for started
keepalive loops, `close(kaStop)` signals, underlying `Conn.Close`
calls, and whether a runtime panic occurred. -/
structure udpTunConn where
  kaStop : KaChannel
  kaOnceDone : Bool
  loopsStarted : Nat
  stopSignals : Nat
  connCloses : Nat
  panicked : Bool
deriving DecidableEq, Repr

/-- A freshly constructed tunnel connection (`UDPTunClientConn` et
al.): nil `kaStop`, unused guard, no loops, no closes. -/
def initConn : udpTunConn := ⟨.noChan, false, 0, 0, 0, false⟩

/-- `udpTunConn.StartKeepalive`: returns immediately on a
non-positive interval; otherwise `kaOnce.Do` makes the channel and
spawns the loop at most once. `sync.Once.Do` serializes concurrent
callers, so any concurrent execution is equivalent to some sequential
order of these calls. -/
def StartKeepalive (c : udpTunConn) (interval : Int) : udpTunConn :=
  if interval ≤ 0 then c
  else if c.kaOnceDone then c
  else { c with kaOnceDone := true, kaStop := .opened,
                loopsStarted := c.loopsStarted + 1 }

/-- Program counter of one goroutine executing `udpTunConn.Close`. -/
inductive ClosePC where
  | start
  | atClose
  | atConnClose
  | finished
  | crashed
deriving DecidableEq, Repr

/-- One atomic step of `udpTunConn.Close`. Go's `select` with a
`default` branch and `close` are each atomic, but the sequence
"observe the channel open in the select, then close it" is not: the
close happens in a separate step, and closing an already-closed
channel panics. -/
def closeStep (c : udpTunConn) (pc : ClosePC) : udpTunConn × ClosePC :=
  match pc with
  | .start =>
    match c.kaStop with
    | .noChan => (c, .atConnClose)
    | .closedCh => (c, .atConnClose)
    | .opened => (c, .atClose)
  | .atClose =>
    match c.kaStop with
    | .closedCh => ({ c with panicked := true }, .crashed)
    | _ => ({ c with kaStop := .closedCh,
                     stopSignals := c.stopSignals + 1 }, .atConnClose)
  | .atConnClose => ({ c with connCloses := c.connCloses + 1 }, .finished)
  | .finished => (c, .finished)
  | .crashed => (c, .crashed)

/-- Run a schedule: each entry names the goroutine (index into `pcs`)
that takes the next atomic `Close` step. -/
def runSched (c : udpTunConn) (pcs : List ClosePC) : List Nat → udpTunConn × List ClosePC
  | [] => (c, pcs)
  | t :: rest =>
    match pcs[t]? with
    | none => runSched c pcs rest
    | some pc =>
      let s := closeStep c pc
      runSched s.1 (pcs.set t s.2) rest

/-- One complete sequential `Close` call (three atomic steps cover the
longest path; extra steps on a finished goroutine are no-ops). -/
def Close (c : udpTunConn) : udpTunConn :=
  (runSched c [ClosePC.start] [0, 0, 0]).1

/-- `n` sequential `Close` calls. -/
def iterClose : Nat → udpTunConn → udpTunConn
  | 0, c => c
  | n + 1, c => iterClose n (Close c)

end relay

/-- `Close` on a connection whose keepalive never started only closes
the underlying stream. -/
theorem Close_noChan (c : relay.udpTunConn) (hk : c.kaStop = .noChan) :
    relay.Close c = { c with connCloses := c.connCloses + 1 } := by
  simp [relay.Close, relay.runSched, relay.closeStep, hk]

/-- `Close` on a connection whose stop channel is already closed skips
the signal and closes the underlying stream. -/
theorem Close_closedCh (c : relay.udpTunConn) (hk : c.kaStop = .closedCh) :
    relay.Close c = { c with connCloses := c.connCloses + 1 } := by
  simp [relay.Close, relay.runSched, relay.closeStep, hk]

/-- `Close` on a connection with an open stop channel signals it once
and closes the underlying stream. -/
theorem Close_opened (c : relay.udpTunConn) (hk : c.kaStop = .opened) :
    relay.Close c = { c with kaStop := .closedCh,
                             stopSignals := c.stopSignals + 1,
                             connCloses := c.connCloses + 1 } := by
  simp [relay.Close, relay.runSched, relay.closeStep, hk]

/-- Once the stop channel is not open, each further sequential `Close`
only bumps the underlying-stream close count. -/
theorem iterClose_stable (n : Nat) (c : relay.udpTunConn)
    (hk : c.kaStop = relay.KaChannel.noChan ∨ c.kaStop = relay.KaChannel.closedCh) :
    relay.iterClose n c = { c with connCloses := c.connCloses + n } := by
  induction n generalizing c with
  | zero => simp [relay.iterClose]
  | succ n ih =>
    have harith : c.connCloses + 1 + n = c.connCloses + (n + 1) := by omega
    rcases hk with hk | hk
    · rw [relay.iterClose, Close_noChan c hk,
        ih { c with connCloses := c.connCloses + 1 } (Or.inl hk)]
      simp [harith]
    · rw [relay.iterClose, Close_closedCh c hk,
        ih { c with connCloses := c.connCloses + 1 } (Or.inr hk)]
      simp [harith]

/-- Any number of sequential `Close` calls after any `StartKeepalive`
never panics, signals the stop channel at most once, and closes the
underlying stream once per call. -/
theorem Close_sequential_safe (n : Nat) (i : Int) :
    (relay.iterClose n (relay.StartKeepalive relay.initConn i)).panicked = false ∧
    (relay.iterClose n (relay.StartKeepalive relay.initConn i)).stopSignals ≤ 1 ∧
    (relay.iterClose n (relay.StartKeepalive relay.initConn i)).connCloses = n := by
  by_cases hi : i ≤ 0
  · have hs : relay.StartKeepalive relay.initConn i = relay.initConn := by
      unfold relay.StartKeepalive
      rw [if_pos hi]
    rw [hs, iterClose_stable n relay.initConn (Or.inl rfl)]
    exact ⟨rfl, Nat.zero_le 1, Nat.zero_add n⟩
  · have hs : relay.StartKeepalive relay.initConn i =
        ⟨.opened, true, 1, 0, 0, false⟩ := by
      unfold relay.StartKeepalive
      rw [if_neg hi]
      rfl
    rw [hs]
    cases n with
    | zero => exact ⟨rfl, by decide, rfl⟩
    | succ n =>
      have h1 : relay.Close ⟨.opened, true, 1, 0, 0, false⟩ =
          ⟨.closedCh, true, 1, 1, 1, false⟩ := by decide
      rw [relay.iterClose, h1,
        iterClose_stable n ⟨.closedCh, true, 1, 1, 1, false⟩ (Or.inr rfl)]
      exact ⟨rfl, by show (1 : Nat) ≤ 1; decide, by show 1 + n = n + 1; omega⟩

/-- C7 failing input: with the keepalive started, two goroutines that
both pass the select guard before either closes `kaStop` drive the
second `close` into a panic (close of closed channel); the purely
sequential schedule of the same two `Close` calls is safe, signals
once, and closes the stream twice. -/
theorem close_concurrent_double_close_panics :
    ((relay.runSched (relay.StartKeepalive relay.initConn 1)
        [relay.ClosePC.start, relay.ClosePC.start] [0, 1, 0, 1, 0, 1]).1.panicked = true ∧
      (relay.runSched (relay.StartKeepalive relay.initConn 1)
        [relay.ClosePC.start, relay.ClosePC.start] [0, 1, 0, 1, 0, 1]).1.stopSignals = 1) ∧
    ((relay.runSched (relay.StartKeepalive relay.initConn 1)
        [relay.ClosePC.start, relay.ClosePC.start] [0, 0, 0, 1, 1, 1]).1.panicked = false ∧
      (relay.runSched (relay.StartKeepalive relay.initConn 1)
        [relay.ClosePC.start, relay.ClosePC.start] [0, 0, 0, 1, 1, 1]).1.stopSignals = 1 ∧
      (relay.runSched (relay.StartKeepalive relay.initConn 1)
        [relay.ClosePC.start, relay.ClosePC.start] [0, 0, 0, 1, 1, 1]).1.connCloses = 2) := by
  decide

/-- Fold invariant for the keepalive start guard: the loop count never
exceeds one and is zero while the guard is unconsumed. -/
theorem startKeepalive_step_inv (c : relay.udpTunConn) (i : Int)
    (h : c.loopsStarted ≤ 1 ∧ (c.kaOnceDone = false → c.loopsStarted = 0)) :
    (relay.StartKeepalive c i).loopsStarted ≤ 1 ∧
    ((relay.StartKeepalive c i).kaOnceDone = false →
      (relay.StartKeepalive c i).loopsStarted = 0) := by
  unfold relay.StartKeepalive
  by_cases hi : i ≤ 0
  · rw [if_pos hi]
    exact h
  · rw [if_neg hi]
    cases hd : c.kaOnceDone
    · rw [if_neg (by decide)]
      refine ⟨by simp [h.2 hd], ?_⟩
      intro hfalse
      simp at hfalse
    · rw [if_pos rfl]
      exact h

/-- The invariant holds after folding any call sequence from any state
satisfying it. -/
theorem startKeepalive_fold_inv (ivs : List Int) (c : relay.udpTunConn)
    (h : c.loopsStarted ≤ 1 ∧ (c.kaOnceDone = false → c.loopsStarted = 0)) :
    (ivs.foldl relay.StartKeepalive c).loopsStarted ≤ 1 := by
  induction ivs generalizing c with
  | nil => exact h.1
  | cons i rest ih =>
    simp only [List.foldl_cons]
    exact ih _ (startKeepalive_step_inv c i h)

/-- C8: a non-positive interval starts no loop (the connection state
is untouched), and any sequence of `StartKeepalive` calls on a fresh
connection starts at most one keepalive loop (`sync.Once` serializes
concurrent callers, so the fold covers every interleaving). -/
theorem startKeepalive_at_most_one_loop (ivs : List Int) (i : Int)
    (c : relay.udpTunConn) (hi : i ≤ 0) :
    relay.StartKeepalive c i = c ∧
    (ivs.foldl relay.StartKeepalive relay.initConn).loopsStarted ≤ 1 := by
  constructor
  · unfold relay.StartKeepalive
    rw [if_pos hi]
  · exact startKeepalive_fold_inv ivs relay.initConn ⟨by simp [relay.initConn], fun _ => rfl⟩

/-- C8 witness: two positive enable calls and interleaved no-op calls
still yield exactly one loop; a negative interval is a no-op. -/
theorem startKeepalive_at_most_one_loop_witness :
    ((-1 : Int) ≤ 0) ∧
    (relay.StartKeepalive relay.initConn (-1) = relay.initConn ∧
      (([5, 5, -3, 7] : List Int).foldl relay.StartKeepalive
        relay.initConn).loopsStarted ≤ 1) :=
  ⟨by decide,
    startKeepalive_at_most_one_loop [5, 5, -3, 7] (-1) relay.initConn (by decide)⟩

namespace relay

/-- A parsed socks-style address (`gosocks5.Addr`): type tag, raw
host/IP bytes, port. -/
structure SocksAddr where
  atype : Nat
  host : List Nat
  port : Nat
deriving DecidableEq, Repr

/-- Modelled from the spec: the compact address header — "type tag +
length-prefixed host/IP + port" — since the `gosocks5.Addr`
encoder/decoder is not part of src/. Serialization fails (`none`,
modelling `Addr.ParseFrom`'s parse error on `writeToLocked`'s input)
when a field does not fit its wire slot. -/
def encodeAddr (a : SocksAddr) : Option (List Nat) :=
  if a.atype ≤ 255 ∧ a.host.length ≤ 255 ∧ (∀ b ∈ a.host, b ≤ 255) ∧ a.port ≤ 65535 then
    some (a.atype :: a.host.length :: (a.host ++ [a.port / 256, a.port % 256]))
  else none

/-- Modelled from the spec: inverse of `encodeAddr`, returning the
decoded address and the remaining stream bytes. -/
def decodeAddr : List Nat → Option (SocksAddr × List Nat)
  | t :: hlen :: rest =>
    if (rest.take hlen).length = hlen then
      match rest.drop hlen with
      | hi :: lo :: rest' => some (⟨t, rest.take hlen, hi * 256 + lo⟩, rest')
      | _ => none
    else none
  | _ => none

/-- Modelled from the spec: one wire frame is
`[address-header][length-field][fragment-flag][payload]`, the length
field being the 16-bit header reserved value as set by the caller and
the fragment flag one byte. -/
def writeUDPDatagram (rsv frag : Nat) (a : SocksAddr) (payload : List Nat) :
    Option (List Nat) :=
  (encodeAddr a).map fun ab =>
    ab ++ [rsv % 65536 / 256, rsv % 65536 % 256, frag % 256] ++ payload

/-- Frame-decoding errors: malformed or short address header, stream
truncated before the announced payload length, or a fragment flag
other than the `0xFF` sentinel. -/
inductive ReadErr where
  | badAddr
  | truncated
  | protocolViolation
deriving DecidableEq, Repr

/-- Modelled from the spec: frame decoding — the length field
delimits the payload, and a fragment flag differing from the `0xFF`
sentinel "is a protocol violation and must be rejected, not
tolerated". -/
def readUDPDatagram (stream : List Nat) : Except ReadErr (SocksAddr × List Nat) :=
  match decodeAddr stream with
  | none => .error .badAddr
  | some (a, rest) =>
    match rest with
    | hi :: lo :: frag :: rest' =>
      if frag = 255 then
        if rest'.length < hi * 256 + lo then .error .truncated
        else .ok (a, rest'.take (hi * 256 + lo))
      else .error .protocolViolation
    | _ => .error .truncated

/-- `udpTunConn.ReadFrom`: decode one datagram from the stream into a
caller buffer of capacity `bufLen`; an oversized payload is silently
truncated (`n = copy(b, dgram.Data)`); the final
`net.ResolveUDPAddr(socksAddr.String())` textual renormalization is
modelled as the identity on the structured address. Returns the byte
count, source address, and the payload as delivered in the buffer. -/
def ReadFrom (stream : List Nat) (bufLen : Nat) :
    Except ReadErr (Nat × SocksAddr × List Nat) :=
  match readUDPDatagram stream with
  | .error e => .error e
  | .ok (a, data) => .ok (min data.length bufLen, a, data.take bufLen)

/-- `udpTunConn.Read`: `ReadFrom` with the source address dropped. -/
def Read (stream : List Nat) (bufLen : Nat) : Except ReadErr (Nat × List Nat) :=
  match ReadFrom stream bufLen with
  | .error e => .error e
  | .ok (n, _, data) => .ok (n, data)

/-- Write-path errors of `writeToLocked`: destination fails to
serialize, or the underlying stream write fails. -/
inductive WriteErr where
  | parseError
  | streamError
deriving DecidableEq, Repr

/-- `udpTunConn.writeToLocked`: serialize the destination (abort with
`n = 0` on a parse error), set the header reserved field to
`uint16(len(b))` and the fragment flag to the `0xFF` sentinel, write
the frame to the underlying stream (success given by the `streamWrite`
predicate), then report `n = len(b)` regardless of the stream-write
outcome. -/
def writeToLocked (streamWrite : List Nat → Bool) (b : List Nat) (a : SocksAddr) :
    Nat × Option WriteErr :=
  match writeUDPDatagram (b.length % 65536) 255 a b with
  | none => (0, some .parseError)
  | some frame => (b.length, if streamWrite frame then none else some .streamError)

end relay

/-- Decoding an encoded address consumes exactly its bytes and
returns the address unchanged. -/
theorem decodeAddr_encodeAddr (a : relay.SocksAddr) (bs tail : List Nat)
    (h : relay.encodeAddr a = some bs) :
    relay.decodeAddr (bs ++ tail) = some (a, tail) := by
  obtain ⟨t, host, p⟩ := a
  unfold relay.encodeAddr at h
  split at h
  · rename_i hc
    obtain rfl : (t :: host.length :: (host ++ [p / 256, p % 256])) = bs :=
      Option.some.inj h
    have hassoc : (host ++ [p / 256, p % 256]) ++ tail =
        host ++ ([p / 256, p % 256] ++ tail) := List.append_assoc _ _ _
    rw [List.cons_append, List.cons_append, hassoc]
    unfold relay.decodeAddr
    dsimp only
    rw [List.take_left, List.drop_left]
    have hport : p / 256 * 256 + p % 256 = p := by
      rw [Nat.mul_comm]
      exact Nat.div_add_mod p 256
    simp [hport]
  · cases h

/-- C1: a frame whose fragment flag is not the `0xFF` sentinel is
rejected by both `ReadFrom` and `Read` with the protocol-violation
error; no payload is delivered. -/
theorem readFrom_rejects_nonsentinel_frag (stream : List Nat) (bufLen : Nat)
    (a : relay.SocksAddr) (hi lo frag : Nat) (rest' : List Nat)
    (hdec : relay.decodeAddr stream = some (a, hi :: lo :: frag :: rest'))
    (hfrag : frag ≠ 255) :
    relay.ReadFrom stream bufLen = .error .protocolViolation ∧
    relay.Read stream bufLen = .error .protocolViolation := by
  have hr : relay.ReadFrom stream bufLen = .error .protocolViolation := by
    unfold relay.ReadFrom relay.readUDPDatagram
    rw [hdec]
    dsimp only
    rw [if_neg hfrag]
  refine ⟨hr, ?_⟩
  unfold relay.Read
  rw [hr]

/-- C1 witness: a concrete frame carrying fragment flag `7` instead of
`0xFF` is rejected. -/
theorem readFrom_rejects_nonsentinel_frag_witness :
    relay.decodeAddr [1, 4, 127, 0, 0, 1, 0, 80, 0, 0, 7] =
      some (⟨1, [127, 0, 0, 1], 80⟩, [0, 0, 7]) ∧
    (7 : Nat) ≠ 255 ∧
    (relay.ReadFrom [1, 4, 127, 0, 0, 1, 0, 80, 0, 0, 7] 16 =
        .error .protocolViolation ∧
      relay.Read [1, 4, 127, 0, 0, 1, 0, 80, 0, 0, 7] 16 =
        .error .protocolViolation) :=
  ⟨by decide, by decide,
    readFrom_rejects_nonsentinel_frag [1, 4, 127, 0, 0, 1, 0, 80, 0, 0, 7] 16
      ⟨1, [127, 0, 0, 1], 80⟩ 0 0 7 [] (by decide) (by decide)⟩

/-- C3: a frame produced by the write path (reserved field
`uint16(len(b))`, fragment flag `0xFF`) decodes on the read path, for
payloads up to 65535 bytes and a buffer at least as large, to the same
structured address and the exact payload. -/
theorem tunnel_write_read_roundtrip (a : relay.SocksAddr) (b : List Nat)
    (bufLen : Nat) (frame : List Nat)
    (henc : relay.writeUDPDatagram (b.length % 65536) 255 a b = some frame)
    (hlen : b.length ≤ 65535)
    (hbuf : b.length ≤ bufLen) :
    relay.ReadFrom frame bufLen = .ok (b.length, a, b) := by
  unfold relay.writeUDPDatagram at henc
  cases hab : relay.encodeAddr a with
  | none =>
    rw [hab] at henc
    cases henc
  | some ab =>
    rw [hab] at henc
    dsimp only [Option.map] at henc
    have hmod : b.length % 65536 = b.length := Nat.mod_eq_of_lt (by omega)
    have h255 : (255 : Nat) % 256 = 255 := by decide
    rw [hmod, hmod, h255] at henc
    have hframe : frame = ab ++ [b.length / 256, b.length % 256, 255] ++ b :=
      (Option.some.inj henc).symm
    have hdec := decodeAddr_encodeAddr a ab
      ([b.length / 256, b.length % 256, 255] ++ b) hab
    unfold relay.ReadFrom relay.readUDPDatagram
    rw [hframe, List.append_assoc, hdec]
    simp only [List.cons_append, List.nil_append]
    have hdlen : b.length / 256 * 256 + b.length % 256 = b.length := by
      rw [Nat.mul_comm]
      exact Nat.div_add_mod b.length 256
    rw [if_pos trivial, hdlen, if_neg (Nat.lt_irrefl b.length), List.take_length]
    show Except.ok (min b.length bufLen, a, List.take bufLen b) =
      Except.ok (b.length, a, b)
    rw [Nat.min_eq_left hbuf, List.take_of_length_le hbuf]

/-- C3 witness: a two-byte payload to `127.0.0.1:80` survives the
round trip intact. -/
theorem tunnel_write_read_roundtrip_witness :
    relay.writeUDPDatagram (([9, 8] : List Nat).length % 65536) 255
        ⟨1, [127, 0, 0, 1], 80⟩ [9, 8] =
      some [1, 4, 127, 0, 0, 1, 0, 80, 0, 2, 255, 9, 8] ∧
    (([9, 8] : List Nat).length ≤ 65535 ∧ ([9, 8] : List Nat).length ≤ 16) ∧
    relay.ReadFrom [1, 4, 127, 0, 0, 1, 0, 80, 0, 2, 255, 9, 8] 16 =
      .ok (2, ⟨1, [127, 0, 0, 1], 80⟩, [9, 8]) :=
  ⟨by decide, ⟨by decide, by decide⟩,
    tunnel_write_read_roundtrip ⟨1, [127, 0, 0, 1], 80⟩ [9, 8] 16
      [1, 4, 127, 0, 0, 1, 0, 80, 0, 2, 255, 9, 8]
      (by decide) (by decide) (by decide)⟩

/-- C10: whenever the destination serializes, `writeToLocked` reports
`n = len(b)` for every stream-write outcome — including a failing
stream write, which still reports the full length alongside its
error. -/
theorem writeToLocked_reports_full_length (w : List Nat → Bool) (b : List Nat)
    (a : relay.SocksAddr) (h : (relay.encodeAddr a).isSome = true) :
    (relay.writeToLocked w b a).1 = b.length ∧
    (relay.writeToLocked (fun _ => false) b a).1 = b.length ∧
    (relay.writeToLocked (fun _ => false) b a).2 = some .streamError := by
  obtain ⟨ab, hab⟩ := Option.isSome_iff_exists.mp h
  unfold relay.writeToLocked relay.writeUDPDatagram
  rw [hab]
  exact ⟨rfl, rfl, rfl⟩

/-- C10 witness: a three-byte payload reports `n = 3` both on a
successful and on a failing stream write. -/
theorem writeToLocked_reports_full_length_witness :
    (relay.encodeAddr ⟨1, [127, 0, 0, 1], 80⟩).isSome = true ∧
    ((relay.writeToLocked (fun _ => true) [5, 6, 7] ⟨1, [127, 0, 0, 1], 80⟩).1 = 3 ∧
      (relay.writeToLocked (fun _ => false) [5, 6, 7] ⟨1, [127, 0, 0, 1], 80⟩).1 = 3 ∧
      (relay.writeToLocked (fun _ => false) [5, 6, 7] ⟨1, [127, 0, 0, 1], 80⟩).2 =
        some .streamError) :=
  ⟨by decide,
    writeToLocked_reports_full_length (fun _ => true) [5, 6, 7]
      ⟨1, [127, 0, 0, 1], 80⟩ (by decide)⟩
